import Mathlib

/-!
Verification of the connection/session subsystem of the Info-Collect-Compare
repository.  The Python sources under `src/connection/` are shallowly embedded:
strings are modelled as `List Char`, the in-memory buffer manager and the
on-disk files as explicit state records, and wall-clock timestamps as an
explicit `Nat` parameter (the source formats `datetime.now()` with one-second
granularity; two calls in the same second yield the same rendered timestamp,
two calls in different seconds yield different ones, which the `Nat` rendering
preserves).
-/

namespace ICC

/-! ## Python string primitives

Faithful models of the Python `str` operations used by the sources:
`str.strip`, `str.splitlines`, `str.replace` for line endings, `"\n".join`,
and `str.endswith`. -/

/-- Whitespace set of Python `str.strip` / `str.isspace`. -/
def pyIsSpace (c : Char) : Bool :=
  c = ' ' || c = '\t' || c = '\n' || c = '\r' || c = '\x0b' || c = '\x0c' ||
  c = '\x1c' || c = '\x1d' || c = '\x1e' || c = '\x1f' || c = '\x85' || c = '\xa0' ||
  c = ' ' || c = ' ' || c = ' ' || c = ' ' || c = ' ' ||
  c = ' ' || c = ' ' || c = ' ' || c = ' ' || c = ' ' ||
  c = ' ' || c = ' ' || c = ' ' || c = ' ' || c = ' ' ||
  c = ' ' || c = '　'

/-- Python `str.strip()` with no argument: drop leading and trailing whitespace. -/
def pyStrip (s : List Char) : List Char :=
  ((s.dropWhile pyIsSpace).reverse.dropWhile pyIsSpace).reverse

/-- Line-boundary characters of Python `str.splitlines`. -/
def isLineBoundary (c : Char) : Bool :=
  c = '\n' || c = '\r' || c = '\x0b' || c = '\x0c' || c = '\x1c' || c = '\x1d' ||
  c = '\x1e' || c = '\x85' || c = ' ' || c = ' '

/-- Worker for `pySplitlines`: `acc` holds the current line reversed.  A CRLF
pair counts as a single boundary; any other boundary character ends the
current line; a trailing boundary opens no further line. -/
def pySplitAux (acc : List Char) : List Char → List (List Char)
  | [] => [acc.reverse]
  | [c] => if isLineBoundary c then [acc.reverse] else [(c :: acc).reverse]
  | c :: c2 :: r =>
      if c = '\r' && c2 = '\n' then
        acc.reverse :: (if r.isEmpty then [] else pySplitAux [] r)
      else if isLineBoundary c then
        acc.reverse :: pySplitAux [] (c2 :: r)
      else
        pySplitAux (c :: acc) (c2 :: r)

/-- Python `str.splitlines()`: splits on the line-boundary set, treating CRLF as
a single boundary; a trailing boundary produces no trailing empty line; the
empty string yields no lines. -/
def pySplitlines (s : List Char) : List (List Char) :=
  match s with
  | [] => []
  | c :: r => pySplitAux [] (c :: r)

/-- Python `"\n".join(lines)`. -/
def pyJoinLF : List (List Char) → List Char
  | [] => []
  | [l] => l
  | l :: ls => l ++ '\n' :: pyJoinLF ls

/-- Python `s.replace("\r\n", "\n")`, scanning left to right. -/
def replaceCrLf : List Char → List Char
  | [] => []
  | [c] => [c]
  | c :: c2 :: r =>
      if c = '\r' && c2 = '\n' then '\n' :: replaceCrLf r
      else c :: replaceCrLf (c2 :: r)

/-- The line-ending normalization of `ConnectionUtils.format_command_output`:
`out.replace("\r\n", "\n").replace("\r", "\n")`. -/
def normNewlines (s : List Char) : List Char :=
  (replaceCrLf s).map (fun c => if c = '\r' then '\n' else c)

/-! ## `ConnectionUtils.format_command_output` (src/connection/utils.py, lines 83-104)

The source strips the command, substitutes the empty string for a missing
output, removes NUL characters, normalizes CRLF and CR to LF, splits into
lines, drops leading blank lines, drops a single leading command-echo line
(first line whose stripped text equals the command or ends with it), joins the
remaining lines with LF and wraps the result as `"<cmd>\n<body>\n\n"`. -/

/-- Leading-blank-line removal followed by the echo-line drop of
`format_command_output`: `head == cmd or head.endswith(cmd)` where
`head = lines[0].strip()`. -/
def echoStrip (cmd : List Char) (lines : List (List Char)) : List (List Char) :=
  match lines.dropWhile (fun l => pyStrip l = []) with
  | [] => []
  | l0 :: rest =>
      if pyStrip l0 = cmd || cmd.isSuffixOf (pyStrip l0) then rest else l0 :: rest

/-- Line list that `format_command_output` derives from the raw output before
echo stripping: NUL removal, newline normalization, `splitlines`. -/
def formatLines (output : List Char) : List (List Char) :=
  pySplitlines (normNewlines (output.filter (fun c => c ≠ '\x00')))

/-- Body of the formatted block: remaining lines joined with LF. -/
def formatBody (cmd output : List Char) : List Char :=
  pyJoinLF (echoStrip cmd (formatLines output))

/-- `ConnectionUtils.format_command_output(command, output, success)`.  The
`output` argument may be `None` in the callers, hence `Option`; the `success`
flag is accepted but unused by the source body. -/
def format_command_output (command : List Char) (output : Option (List Char))
    (_success : Bool) : List Char :=
  let cmd := pyStrip command
  let out := output.getD []
  cmd ++ '\n' :: (formatBody cmd out ++ ['\n', '\n'])

/-! ## `ConnectionUtils.validate_connection_params` (src/connection/utils.py, lines 55-81) -/

/-- Result record of `validate_connection_params`: the `valid` flag and the
collected error strings. -/
structure ValidationResult where
  valid : Bool
  errors : List String
deriving Repr, DecidableEq

/-- Digit run of length 1 to 3, as matched by `\d{1,3}`. -/
def isOctetRun (s : List Char) : Bool :=
  decide (1 ≤ s.length) && decide (s.length ≤ 3) && s.all Char.isDigit

/-- Core of the regex `^\d{1,3}(\.\d{1,3}){3}$`: four digit runs of length 1-3
separated by dots. -/
def ipCore (s : List Char) : Bool :=
  match s.splitOn '.' with
  | [a, b, c, d] => isOctetRun a && isOctetRun b && isOctetRun c && isOctetRun d
  | _ => false

/-- Python `re.match(r'^\d{1,3}(\.\d{1,3}){3}$', ip)`: anchored at the start,
and `$` also matches just before a single trailing newline. -/
def ipMatch (s : List Char) : Bool :=
  ipCore s || (match s.reverse with
               | '\n' :: r => ipCore r.reverse
               | _ => false)

/-- `ConnectionUtils.validate_connection_params(protocol, ip, port, username,
password)`: each violated condition appends its own error string; nothing
short-circuits.  The `isinstance` guards of the source are vacuous under the
typed embedding. -/
def validate_connection_params (protocol ip : String) (port : Int)
    (username password : String) : ValidationResult :=
  let errors : List String := []
  let errors := if protocol ≠ "ssh" ∧ protocol ≠ "telnet" then
      errors ++ ["协议必须是 'ssh' 或 'telnet'"] else errors
  let errors := if ip = "" then errors ++ ["IP地址不能为空"]
      else if ¬ ipMatch ip.data then errors ++ ["IP地址格式不正确"] else errors
  let errors := if port < 1 ∨ port > 65535 then
      errors ++ ["端口号必须在1-65535之间"] else errors
  let errors := if username = "" then errors ++ ["用户名不能为空"] else errors
  let errors := if password = "" then errors ++ ["密码不能为空"] else errors
  { valid := errors.isEmpty, errors := errors }

/-! ## Read-path normalizations

`SSHConnection._read_until_prompt` (src/connection/ssh_connection.py, lines
356-362) decodes the received bytes and then normalizes:
`text.replace('\x00', '')`, `re.sub(r'\r+\n', '\n', text)`,
`text.replace('\r', '')`.

`TelnetConnection._read_output` (src/connection/telnet_connection.py, lines
396-410) decodes and then removes every blank line:
`lines = text.splitlines(); non_empty = [ln for ln in lines if ln.strip() != '']`,
replacing `text` by `"\n".join(non_empty)` only when `non_empty` is non-empty. -/

/-- Worker for `re.sub(r'\r+\n', '\n', text)`: `pending` counts CR characters
scanned since the last non-CR character.  A pending run followed by LF is
replaced by the single LF; a run followed by anything else is emitted
unchanged. -/
def subCrRunLfAux (pending : Nat) : List Char → List Char
  | [] => List.replicate pending '\r'
  | c :: r =>
      if c = '\r' then subCrRunLfAux (pending + 1) r
      else if c = '\n' then '\n' :: subCrRunLfAux 0 r
      else List.replicate pending '\r' ++ c :: subCrRunLfAux 0 r

/-- Python `re.sub(r'\r+\n', '\n', text)`. -/
def subCrRunLf (s : List Char) : List Char :=
  subCrRunLfAux 0 s

/-- Normalization applied by `SSHConnection._read_until_prompt` to the decoded
output text (NUL removal, `\r+\n` collapse, removal of remaining CR). -/
def sshNormalize (s : List Char) : List Char :=
  (subCrRunLf (s.filter (fun c => c ≠ '\x00'))).filter (fun c => c ≠ '\r')

/-- Blank-line removal applied by `TelnetConnection._read_output` to the
decoded output text; when every line is blank the text is left unchanged. -/
def telnetNormalize (s : List Char) : List Char :=
  let lines := pySplitlines s
  let nonEmpty := lines.filter (fun ln => pyStrip ln ≠ [])
  if nonEmpty.isEmpty then s else pyJoinLF nonEmpty

/-! ## Fallback prompt pattern

Both `SSHConnection._detect_prompt` (src/connection/ssh_connection.py, lines
233-259) and `TelnetConnection._detect_prompt_pattern`
(src/connection/telnet_connection.py, lines 263-271) fall back to the byte
regex `[\r\n][\w\-\.:/@]+[#>$%]\s*$` when no non-blank prompt sample was
captured.  `re.search` with this pattern succeeds exactly when the buffer ends
(up to trailing byte-whitespace) in a `#`, `>`, `$` or `%` terminator that is
preceded by a non-empty run of word-class bytes and, immediately before that
run, a CR or LF. -/

/-- Byte-level `\s` class of the `re` module (`[ \t\n\r\f\v]`). -/
def isReSpaceByte (c : Char) : Bool :=
  c = ' ' || c = '\t' || c = '\n' || c = '\r' || c = '\x0c' || c = '\x0b'

/-- Byte class `[\w\-\.:/@]` of the fallback pattern (`\w` on bytes is
`[a-zA-Z0-9_]`). -/
def isPromptTokenByte (c : Char) : Bool :=
  c.isAlphanum || c = '_' || c = '-' || c = '.' || c = ':' || c = '/' || c = '@'

/-- Prompt terminators `[#>$%]`. -/
def isPromptTerminator (c : Char) : Bool :=
  c = '#' || c = '>' || c = '$' || c = '%'

/-- Decision procedure for `re.search(rb'[\r\n][\w\-\.:/@]+[#>$%]\s*$', buf)`:
strip trailing byte-whitespace, require a terminator, then a non-empty token
run, then a CR or LF.  The three byte classes are pairwise disjoint, so the
maximal-munch scan from the right decides the regex exactly. -/
def fallbackPromptMatch (buf : List Char) : Bool :=
  match buf.reverse.dropWhile isReSpaceByte with
  | [] => false
  | t :: rest =>
      isPromptTerminator t &&
      !(rest.takeWhile isPromptTokenByte).isEmpty &&
      (match rest.dropWhile isPromptTokenByte with
       | c :: _ => c = '\r' || c = '\n'
       | [] => false)

/-! ## `BufferManager` (src/connection/buffer_manager.py)

State record of the class plus an explicit file-system map and an explicit
timestamp parameter.  `datetime.now().strftime("%Y%m%d-%H%M%S")` is modelled
by rendering a `Nat` second counter: calls within the same second produce the
same name, calls in different seconds produce different names.  File I/O
failure (the `except` path of `flush_buffer`) is modelled by a `diskOk`
flag. -/

/-- UTF-8 byte length of a character list, modelling `len(data.encode('utf-8'))`. -/
def utf8Len (s : List Char) : Nat :=
  (s.map Char.utf8Size).sum

/-- File system: association list from path to file content. -/
abbrev FileSys : Type := List (String × List Char)

/-- Content of the file at `p`, if it exists. -/
def fsGet : FileSys → String → Option (List Char)
  | [], _ => none
  | (q, c) :: r, p => if q = p then some c else fsGet r p

/-- Write (create or overwrite) the file at `p`. -/
def fsSet : FileSys → String → List Char → FileSys
  | [], p, c => [(p, c)]
  | (q, d) :: r, p, c => if q = p then (q, c) :: r else (q, d) :: fsSet r p c

/-- Fields of `BufferManager.__init__` (src/connection/buffer_manager.py,
lines 12-29), without the wall-clock `start_time`. -/
structure BufferState where
  output_dir : String
  mode : String
  ip : String
  output_buffer : List (List Char)
  buffer_size : Nat
  total_bytes : Nat
  last_filepath : String
deriving Repr, DecidableEq

/-- `self.max_buffer_size = 5 * 1024 * 1024`. -/
def max_buffer_size : Nat := 5 * 1024 * 1024

/-- `self.max_output_size = 50 * 1024 * 1024`. -/
def max_output_size : Nat := 50 * 1024 * 1024

/-- Fresh `BufferManager(output_dir, mode, ip)`. -/
def initBuffer (dir mode ip : String) : BufferState :=
  { output_dir := dir, mode := mode, ip := ip, output_buffer := [],
    buffer_size := 0, total_bytes := 0, last_filepath := "" }

/-- Rendered `datetime.now().strftime("%Y%m%d-%H%M%S")` at second `t`. -/
def tsName (t : Nat) : String := toString t

/-- `os.path.join(self.output_dir, f"{self.mode}-{self.ip}-{timestamp}.txt")`,
recomputed from the clock on every call. -/
def mkFilepath (bm : BufferState) (t : Nat) : String :=
  bm.output_dir ++ "/" ++ bm.mode ++ "-" ++ bm.ip ++ "-" ++ tsName t ++ ".txt"

/-- `BufferManager.flush_buffer` (lines 50-75): no-op returning `False` on an
empty buffer; on I/O failure the `except` path returns `False` with the buffer
left intact; otherwise the buffered blocks are appended to the file named from
the current timestamp (mode `'a'` if it exists, `'w'` otherwise), the buffer is
cleared and `_last_filepath` records the path used. -/
def flush_buffer (t : Nat) (diskOk : Bool) (bm : BufferState) (fs : FileSys) :
    BufferState × FileSys × Bool :=
  if bm.output_buffer.isEmpty then (bm, fs, false)
  else if !diskOk then (bm, fs, false)
  else
    let filepath := mkFilepath bm t
    let old := (fsGet fs filepath).getD []
    let fs := fsSet fs filepath (old ++ bm.output_buffer.flatten)
    ({ bm with output_buffer := [], buffer_size := 0, last_filepath := filepath },
     fs, true)

/-- `BufferManager.add_data` (lines 31-48): reject without any state change if
the run-level cap would be exceeded; flush first if the soft buffer threshold
would be exceeded; then append and account the block. -/
def add_data (data : List Char) (t : Nat) (diskOk : Bool) (bm : BufferState)
    (fs : FileSys) : BufferState × FileSys × Bool :=
  let dsz := utf8Len data
  if bm.total_bytes + dsz > max_output_size then (bm, fs, false)
  else
    let st := if bm.buffer_size + dsz > max_buffer_size then
        let r := flush_buffer t diskOk bm fs
        (r.1, r.2.1)
      else (bm, fs)
    ({ st.1 with output_buffer := st.1.output_buffer ++ [data],
                 buffer_size := st.1.buffer_size + dsz,
                 total_bytes := st.1.total_bytes + dsz }, st.2, true)

/-- `BufferManager._get_last_filepath` (lines 105-114): the stored path when
non-empty, otherwise a path generated from the current timestamp. -/
def get_last_filepath (t : Nat) (bm : BufferState) : String :=
  if bm.last_filepath ≠ "" then bm.last_filepath else mkFilepath bm t

/-- Record returned by `BufferManager.finalize`, restricted to the fields the
claims are about (the wall-clock `duration`/`speed_kb_s` floats are omitted). -/
structure FinalStats where
  total_bytes : Nat
  output_dir : String
  filepath : String
deriving Repr, DecidableEq

/-- `BufferManager.finalize` (lines 77-103): a last flush, then the result
path from `_get_last_filepath`; if no file exists there an empty one is
created (path reported as `""` if even that write fails). -/
def finalize (t : Nat) (diskOk : Bool) (bm : BufferState) (fs : FileSys) :
    BufferState × FileSys × FinalStats :=
  let r := flush_buffer t diskOk bm fs
  let bm := r.1
  let fs := r.2.1
  let filepath := get_last_filepath t bm
  let wr : FileSys × String :=
    if (fsGet fs filepath).isSome then (fs, filepath)
    else if diskOk then (fsSet fs filepath [], filepath)
    else (fs, "")
  (bm, wr.1,
   { total_bytes := bm.total_bytes, output_dir := bm.output_dir, filepath := wr.2 })

/-! ## `HighPerformanceConnectionWorker` (src/connection/connection_worker.py)

The command loop `_execute_commands` (lines 154-187) and the validation gate
at the top of `run` (lines 59-65).  The outcome of
`connection.execute_command` for the i-th command (a `(success, output)` pair,
or an exception caught by the `except` branch) and the `is_running` flag read
before the i-th command are supplied by an environment. -/

/-- Outcome of `connection.execute_command` for one command: a returned
`(success, output)` pair, or a raised exception with its message. -/
inductive CmdResult where
  | ok (success : Bool) (output : List Char)
  | exn (msg : List Char)

/-- `completed_commands` and `failed_commands` of `self.stats`. -/
structure WorkerStats where
  completed : Nat
  failed : Nat
deriving Repr, DecidableEq

/-- Environment of one run of `_execute_commands`. -/
structure ExecEnv where
  result : Nat → CmdResult
  running : Nat → Bool
  diskOk : Bool
  now : Nat

/-- Prefix `"错误: "` of the error text formatted in the `except` branch. -/
def errMark : List Char := "错误: ".data

/-- Body of one iteration of the loop in `_execute_commands`: on a returned
pair the formatted output is buffered and `completed_commands` or
`failed_commands` is incremented according to the `add_data` result alone; on
an exception an error block is formatted and buffered (its `add_data` result
is discarded) and `failed_commands` is incremented. -/
def execStep (env : ExecEnv) (i : Nat) (cmd : List Char) (bm : BufferState)
    (fs : FileSys) (stats : WorkerStats) : BufferState × FileSys × WorkerStats :=
  match env.result i with
  | .ok s out =>
      let formatted := format_command_output cmd (some out) s
      let r := add_data formatted env.now env.diskOk bm fs
      if r.2.2 then (r.1, r.2.1, { stats with completed := stats.completed + 1 })
      else (r.1, r.2.1, { stats with failed := stats.failed + 1 })
  | .exn msg =>
      let errBlock := format_command_output cmd (some (errMark ++ msg)) false
      let r := add_data errBlock env.now env.diskOk bm fs
      (r.1, r.2.1, { stats with failed := stats.failed + 1 })

/-- The loop of `_execute_commands` from command index `i` on: `is_running` is
checked before each command and a cleared flag breaks out of the loop,
skipping every remaining command. -/
def execCommandsFrom (env : ExecEnv) (i : Nat) (cmds : List (List Char))
    (bm : BufferState) (fs : FileSys) (stats : WorkerStats) :
    BufferState × FileSys × WorkerStats :=
  match cmds with
  | [] => (bm, fs, stats)
  | cmd :: rest =>
      if env.running i then
        let r := execStep env i cmd bm fs stats
        execCommandsFrom env (i + 1) rest r.1 r.2.1 r.2.2
      else (bm, fs, stats)

/-- `_execute_commands` over the whole command list, starting from zeroed
per-run statistics. -/
def execCommands (env : ExecEnv) (cmds : List (List Char)) (bm : BufferState)
    (fs : FileSys) : BufferState × FileSys × WorkerStats :=
  execCommandsFrom env 0 cmds bm fs ⟨0, 0⟩

/-- Control flow at the top of `HighPerformanceConnectionWorker.run` (lines
59-65): failed validation emits the joined error list and returns before any
connection object is created. -/
inductive RunOutcome where
  | validationFailed (errors : List String)
  | connectionPhase (protocol : String)
deriving Repr, DecidableEq

/-- Validation gate of `run`: only the `connectionPhase` outcome goes on to
construct a connection and connect. -/
def workerRunEntry (protocol ip : String) (port : Int) (username password : String) :
    RunOutcome :=
  let v := validate_connection_params protocol ip port username password
  if v.valid then .connectionPhase protocol else .validationFailed v.errors

/-! ## Auxiliary definitions used by the statements below -/

/-- Every carriage return in the string is immediately followed by a line
feed (the line-ending discipline under which the two read-path normalizations
are compared). -/
def crlfOnly : List Char → Bool
  | [] => true
  | [c] => c ≠ '\r'
  | c :: c2 :: r => if c = '\r' then c2 = '\n' && crlfOnly r else crlfOnly (c2 :: r)

/-- A whole run of `add_data` calls: each operation carries the block, the
current second and the disk status. -/
def addRun (ops : List (List Char × Nat × Bool)) (bm : BufferState) (fs : FileSys) :
    BufferState × FileSys :=
  ops.foldl (fun st op =>
    let r := add_data op.1 op.2.1 op.2.2 st.1 st.2
    (r.1, r.2.1)) (bm, fs)

/-- Buffer state whose accepted-bytes counter already sits at the 50MB cap. -/
def cxCapBuffer : BufferState :=
  { initBuffer "out" "m" "1.2.3.4" with total_bytes := max_output_size }

/-- Buffer state holding one unflushed one-byte block. -/
def cxBmA : BufferState :=
  { initBuffer "out" "m" "1.2.3.4" with
    output_buffer := ["a".data], buffer_size := 1, total_bytes := 1 }

/-- First flush of `cxBmA`, at second 0. -/
def cxFlush1 : BufferState × FileSys × Bool := flush_buffer 0 true cxBmA []

/-- A block accepted after the first flush, at second 1. -/
def cxAdd : BufferState × FileSys × Bool := add_data "b".data 1 true cxFlush1.1 cxFlush1.2.1

/-- Second flush of the same run, at second 1. -/
def cxFlush2 : BufferState × FileSys × Bool := flush_buffer 1 true cxAdd.1 cxAdd.2.1

/-- First `finalize` of a run that never received data, at second 0. -/
def cxFin1 : BufferState × FileSys × FinalStats :=
  finalize 0 true (initBuffer "out" "m" "1.2.3.4") []

/-- Second `finalize` of the same run, at second 1. -/
def cxFin2 : BufferState × FileSys × FinalStats :=
  finalize 1 true cxFin1.1 cxFin1.2.1

/-- Buffer state holding one unflushed block, for the finalize witness. -/
def cxBmW : BufferState :=
  { initBuffer "out" "m" "1.2.3.4" with
    output_buffer := ["x".data], buffer_size := 1, total_bytes := 1 }

/-- Environment whose stop flag is already cleared before the first command. -/
def cxStopEnv : ExecEnv :=
  { result := fun _ => .ok true [], running := fun _ => false, diskOk := true, now := 0 }

/-- Environment that always runs and always succeeds. -/
def cxRunEnv : ExecEnv :=
  { result := fun _ => .ok true "x".data, running := fun _ => true, diskOk := true, now := 0 }

/-- Environment whose command returns `(False, output)` — a transport-level
failure reported through the returned pair, not an exception. -/
def cxFailEnv : ExecEnv :=
  { result := fun _ => .ok false "timeout hint".data, running := fun _ => true,
    diskOk := true, now := 0 }

/-- Environment whose command raises an exception with message `boom`. -/
def cxExnEnv : ExecEnv :=
  { result := fun _ => .exn "boom".data, running := fun _ => true, diskOk := true, now := 0 }

/-! ## Helper lemmas on the string pipeline -/

theorem pySplitAux_ne_nil (acc s) : pySplitAux acc s ≠ [] := by
  induction acc, s using pySplitAux.induct with
  | case1 acc => simp [pySplitAux]
  | case2 acc c h => simp [pySplitAux, h]
  | case3 acc c h => simp [pySplitAux, h]
  | case4 acc c c2 r h ih => simp [pySplitAux, h]
  | case5 acc c c2 r h hb ih => simp [pySplitAux, h, hb]
  | case6 acc c c2 r h hb ih => simpa [pySplitAux, h, hb] using ih

theorem pySplitlines_ne_nil (s : List Char) (h : s ≠ []) : pySplitlines s ≠ [] := by
  match s with
  | [] => exact absurd rfl h
  | c :: r => exact pySplitAux_ne_nil [] (c :: r)

theorem pySplitAux_chars (P : Char → Prop) :
    ∀ acc s, (∀ c ∈ acc, P c) → (∀ c ∈ s, isLineBoundary c = false → P c) →
    ∀ l ∈ pySplitAux acc s, ∀ c ∈ l, P c := by
  intro acc s
  induction acc, s using pySplitAux.induct with
  | case1 acc =>
      intro hacc _ l hl c hc
      simp only [pySplitAux, List.mem_singleton] at hl
      subst hl
      exact hacc c (List.mem_reverse.mp hc)
  | case2 acc a hb =>
      intro hacc hs l hl c hc
      simp [pySplitAux, hb] at hl
      subst hl
      exact hacc c (List.mem_reverse.mp hc)
  | case3 acc a hb =>
      intro hacc hs l hl c hc
      simp [pySplitAux, hb] at hl
      subst hl
      rcases List.mem_append.mp hc with h | h
      · exact hacc c (List.mem_reverse.mp h)
      · have : c = a := by simpa using h
        subst this
        exact hs c (by simp) (by simpa using hb)
  | case4 acc a c2 r h ih =>
      intro hacc hs l hl c hc
      simp only [pySplitAux, h, if_true] at hl
      rcases List.mem_cons.mp hl with h1 | h1
      · subst h1
        exact hacc c (List.mem_reverse.mp hc)
      · by_cases hr : r.isEmpty
        · simp [hr] at h1
        · simp only [hr, if_false, Bool.false_eq_true] at h1
          exact ih (by simp) (fun d hd hbd => hs d (by simp [hd]) hbd) l h1 c hc
  | case5 acc a c2 r h hb ih =>
      intro hacc hs l hl c hc
      simp only [pySplitAux] at hl
      rw [if_neg (by simpa using h), if_pos hb] at hl
      rcases List.mem_cons.mp hl with h1 | h1
      · subst h1
        exact hacc c (List.mem_reverse.mp hc)
      · exact ih (by simp) (fun d hd hbd => hs d (by simp [hd]) hbd) l h1 c hc
  | case6 acc a c2 r h hb ih =>
      intro hacc hs l hl c hc
      simp only [pySplitAux] at hl
      rw [if_neg (by simpa using h), if_neg (by simpa using hb)] at hl
      refine ih ?_ (fun d hd hbd => hs d (by simp [hd]) hbd) l hl c hc
      intro d hd
      rcases List.mem_cons.mp hd with h1 | h1
      · subst h1
        exact hs _ (by simp) (by simpa using hb)
      · exact hacc d h1

theorem pySplitlines_chars (P : Char → Prop) (s : List Char)
    (hs : ∀ c ∈ s, isLineBoundary c = false → P c) :
    ∀ l ∈ pySplitlines s, ∀ c ∈ l, P c := by
  match s with
  | [] => simp [pySplitlines]
  | a :: r => exact pySplitAux_chars P [] (a :: r) (by simp) hs

theorem pySplitlines_no_boundary (s : List Char) :
    ∀ l ∈ pySplitlines s, ∀ c ∈ l, isLineBoundary c = false := by
  refine pySplitlines_chars _ s ?_
  intro c _ h
  exact h

theorem mem_pyJoinLF (ls : List (List Char)) (c : Char) (hc : c ∈ pyJoinLF ls) :
    c = '\n' ∨ ∃ l ∈ ls, c ∈ l := by
  induction ls with
  | nil => simp [pyJoinLF] at hc
  | cons l ls ih =>
      cases ls with
      | nil => exact Or.inr ⟨l, by simp, by simpa [pyJoinLF] using hc⟩
      | cons l2 ls2 =>
          simp only [pyJoinLF] at hc
          rcases List.mem_append.mp hc with h | h
          · exact Or.inr ⟨l, by simp, h⟩
          · rcases List.mem_cons.mp h with h | h
            · exact Or.inl h
            · rcases ih h with h | ⟨m, hm, hcm⟩
              · exact Or.inl h
              · exact Or.inr ⟨m, by simp [hm], hcm⟩

theorem no_cr_normNewlines (s : List Char) : ∀ c ∈ normNewlines s, c ≠ '\r' := by
  intro c hc
  simp only [normNewlines, List.mem_map] at hc
  obtain ⟨d, _, hd⟩ := hc
  by_cases h : d = '\r' <;> simp [h] at hd <;> simp [← hd]
  exact h

theorem echoStrip_subset (cmd : List Char) (lines : List (List Char)) :
    ∀ l ∈ echoStrip cmd lines, l ∈ lines := by
  intro l hl
  have hsub : ∀ m ∈ lines.dropWhile (fun m => pyStrip m = []), m ∈ lines :=
    fun m hm => (List.dropWhile_sublist _).mem hm
  rcases hdrop : lines.dropWhile (fun m => pyStrip m = []) with _ | ⟨l0, rest⟩
  · simp only [echoStrip, hdrop] at hl
    exact absurd hl (by simp)
  · simp only [echoStrip, hdrop] at hl
    split at hl
    · exact hsub l (hdrop ▸ List.mem_cons_of_mem l0 hl)
    · exact hsub l (hdrop ▸ hl)

theorem no_cr_formatBody (cmd out : List Char) : '\r' ∉ formatBody cmd out := by
  intro hmem
  rcases mem_pyJoinLF _ _ hmem with h | ⟨l, hl, hcl⟩
  · exact absurd h.symm (by decide)
  · have hl2 : l ∈ formatLines out := echoStrip_subset _ _ l hl
    have := pySplitlines_no_boundary _ l hl2 '\r' hcl
    simp [isLineBoundary] at this


/-! ## Claims about the output formatter -/

/-- C5: `format_command_output` returns exactly `"<command>\n<body>\n\n"` with
the command stripped of surrounding whitespace; the body contains no carriage
return; and the single leading echoed command line is removed exactly when,
after dropping leading blank lines, the first line stripped equals the command
or ends with it. -/
theorem claim_C5_format_shape (command out : List Char) (b : Bool) :
    format_command_output command (some out) b
        = pyStrip command ++ '\n' :: (formatBody (pyStrip command) out ++ ['\n', '\n'])
      ∧ '\r' ∉ formatBody (pyStrip command) out
      ∧ (∀ l0 rest,
          (formatLines out).dropWhile (fun l => pyStrip l = []) = l0 :: rest →
          ((pyStrip l0 = pyStrip command
              ∨ (pyStrip command).isSuffixOf (pyStrip l0) = true →
              echoStrip (pyStrip command) (formatLines out) = rest)
           ∧ (¬(pyStrip l0 = pyStrip command
              ∨ (pyStrip command).isSuffixOf (pyStrip l0) = true) →
              echoStrip (pyStrip command) (formatLines out) = l0 :: rest))) := by
  refine ⟨rfl, no_cr_formatBody _ _, ?_⟩
  intro l0 rest hd
  constructor
  · intro hcond
    have hb : (decide (pyStrip l0 = pyStrip command)
        || (pyStrip command).isSuffixOf (pyStrip l0)) = true := by
      rcases hcond with h | h
      · simp [h]
      · simp [h]
    simp only [echoStrip, hd]
    rw [if_pos hb]
  · intro hcond
    have hb : ¬((decide (pyStrip l0 = pyStrip command)
        || (pyStrip command).isSuffixOf (pyStrip l0)) = true) := by
      simp only [Bool.or_eq_true, decide_eq_true_eq]
      exact hcond
    simp only [echoStrip, hd]
    rw [if_neg hb]

/-- Witness for C5: concrete echoed output `"show ver\nbody"` under command
`"show ver"` has its echo line removed, leaving the single body line. -/
theorem claim_C5_witness :
    echoStrip (pyStrip "show ver".data) (formatLines "show ver\nbody".data)
      = ["body".data] :=
  ((claim_C5_format_shape "show ver".data "show ver\nbody".data true).2.2
    "show ver".data ["body".data] (by decide)).1 (by decide)

/-- C10: a missing (`None`) raw output, or one consisting only of blank
lines, never fails and produces exactly the wrapper around an empty body,
`"<command>\n\n\n"`. -/
theorem claim_C10_blank_output (command : List Char) (b : Bool) :
    format_command_output command none b = pyStrip command ++ ['\n', '\n', '\n']
  ∧ (∀ output : List Char,
      (∀ l ∈ formatLines output, pyStrip l = []) →
      format_command_output command (some output) b
        = pyStrip command ++ ['\n', '\n', '\n']) := by
  constructor
  · rfl
  · intro output h
    have hd : (formatLines output).dropWhile (fun l => pyStrip l = []) = [] := by
      rw [List.dropWhile_eq_nil_iff]
      intro l hl
      simp [h l hl]
    simp [format_command_output, formatBody, echoStrip, hd, pyJoinLF]

/-- Witness for C10: the blank-only raw output `"\n \t\n"` yields the
empty-body block for command `"show ver"`. -/
theorem claim_C10_witness :
    format_command_output "show ver".data (some "\n \t\n".data) true
      = pyStrip "show ver".data ++ ['\n', '\n', '\n'] :=
  (claim_C10_blank_output "show ver".data true).2 "\n \t\n".data (by decide)


/-! ## Claim about parameter validation -/

/-- C9: validation collects all applicable violations without
short-circuiting — the returned error list is the concatenation of the five
independent checks — `valid` holds exactly when the list is empty, and a
non-empty list makes `run` return the validation failure before any
connection attempt. -/
theorem claim_C9_validation (protocol ip : String) (port : Int)
    (username password : String) :
    (validate_connection_params protocol ip port username password).errors
        = (if protocol ≠ "ssh" ∧ protocol ≠ "telnet"
           then ["协议必须是 'ssh' 或 'telnet'"] else [])
          ++ (if ip = "" then ["IP地址不能为空"]
              else if ¬ ipMatch ip.data then ["IP地址格式不正确"] else [])
          ++ (if port < 1 ∨ port > 65535 then ["端口号必须在1-65535之间"] else [])
          ++ (if username = "" then ["用户名不能为空"] else [])
          ++ (if password = "" then ["密码不能为空"] else [])
      ∧ ((validate_connection_params protocol ip port username password).valid = true
          ↔ (validate_connection_params protocol ip port username password).errors = [])
      ∧ ((validate_connection_params protocol ip port username password).errors ≠ [] →
          workerRunEntry protocol ip port username password
            = .validationFailed
                (validate_connection_params protocol ip port username password).errors) := by
  have h2 : (validate_connection_params protocol ip port username password).valid = true
      ↔ (validate_connection_params protocol ip port username password).errors = [] := by
    rw [show (validate_connection_params protocol ip port username password).valid
        = (validate_connection_params protocol ip port username password).errors.isEmpty
        from rfl]
    exact List.isEmpty_iff
  refine ⟨?_, h2, ?_⟩
  · simp only [validate_connection_params]
    split_ifs <;> simp
  · intro h
    have hv : ¬((validate_connection_params protocol ip port username password).valid
        = true) := fun hvv => h (h2.mp hvv)
    simp only [workerRunEntry]
    rw [if_neg hv]

/-- Witness for C9: all five violations at once (`ftp`, malformed IP, port 0,
empty credentials) are collected and `run` stops at the validation gate. -/
theorem claim_C9_witness :
    workerRunEntry "ftp" "1.2.3" 0 "" ""
      = .validationFailed ["协议必须是 'ssh' 或 'telnet'", "IP地址格式不正确",
          "端口号必须在1-65535之间", "用户名不能为空", "密码不能为空"] :=
  ((claim_C9_validation "ftp" "1.2.3" 0 "" "").2.2 (by decide)).trans (by decide)


/-! ## Claim about the fallback prompt pattern -/

/-- C8 (amended): the fallback pattern requires a CR or LF immediately before
the path-like token: every buffer of the shape
`prefix ++ [CR|LF] ++ token+ ++ terminator ++ whitespace*` matches. -/
theorem claim_C8_amended (pre tok ws : List Char) (c t : Char)
    (hc : c = '\r' ∨ c = '\n')
    (htok : tok ≠ [])
    (htok2 : ∀ d ∈ tok, isPromptTokenByte d = true)
    (ht : isPromptTerminator t = true)
    (hws : ∀ d ∈ ws, isReSpaceByte d = true) :
    fallbackPromptMatch (pre ++ c :: (tok ++ t :: ws)) = true := by
  have htns : isReSpaceByte t = false := by
    have ht4 : ((t = '#' ∨ t = '>') ∨ t = '$') ∨ t = '%' := by
      simpa [isPromptTerminator] using ht
    rcases ht4 with ((h | h) | h) | h <;> simp [h, isReSpaceByte]
  have hcnt : isPromptTokenByte c = false := by
    rcases hc with h | h <;> simp [h, isPromptTokenByte]
  have hrev : (pre ++ c :: (tok ++ t :: ws)).reverse
      = ws.reverse ++ t :: (tok.reverse ++ c :: pre.reverse) := by
    simp
  rw [fallbackPromptMatch, hrev]
  have hdw : (ws.reverse ++ t :: (tok.reverse ++ c :: pre.reverse)).dropWhile isReSpaceByte
      = t :: (tok.reverse ++ c :: pre.reverse) := by
    rw [List.dropWhile_append]
    have hwsall : ws.reverse.dropWhile isReSpaceByte = [] := by
      rw [List.dropWhile_eq_nil_iff]
      intro d hd
      exact hws d (List.mem_reverse.mp hd)
    rw [hwsall]
    simp [List.dropWhile_cons, htns]
  rw [hdw]
  have htk : (tok.reverse ++ c :: pre.reverse).takeWhile isPromptTokenByte
      = tok.reverse ++ (c :: pre.reverse).takeWhile isPromptTokenByte :=
    List.takeWhile_append_of_pos (fun d hd => htok2 d (List.mem_reverse.mp hd))
  have htkc : (c :: pre.reverse).takeWhile isPromptTokenByte = [] := by
    simp [List.takeWhile_cons, hcnt]
  have hdk : (tok.reverse ++ c :: pre.reverse).dropWhile isPromptTokenByte
      = c :: pre.reverse := by
    rw [List.dropWhile_append]
    have : tok.reverse.dropWhile isPromptTokenByte = [] := by
      rw [List.dropWhile_eq_nil_iff]
      intro d hd
      exact htok2 d (List.mem_reverse.mp hd)
    rw [this]
    simp [List.dropWhile_cons, hcnt]
  have hcc : (decide (c = '\r') || decide (c = '\n')) = true := by
    rcases hc with h | h <;> simp [h]
  simp only [htk, htkc, hdk, ht, List.append_nil, Bool.true_and, hcc,
    Bool.and_true, Bool.not_eq_eq_eq_not, Bool.not_false]
  simp [htok]

/-- Counterexample for C8: the buffer `"SW1#"` ends in a path-like token
immediately followed by `#` (and no trailing whitespace), yet the fallback
pattern `[\r\n][\w\-\.:/@]+[#>$%]\s*$` rejects it because no CR or LF
precedes the token. -/
theorem claim_C8_counterexample : fallbackPromptMatch "SW1#".data = false := by decide

/-- Witness for C8 (amended): `"host\nSW1# \t"` matches. -/
theorem claim_C8_witness :
    fallbackPromptMatch ("host".data ++ '\n' :: ("SW1".data ++ '#' :: " \t".data)) = true :=
  claim_C8_amended "host".data "SW1".data " \t".data '\n' '#'
    (Or.inr rfl) (by decide) (by decide) (by decide) (by decide)


/-! ## Helper lemmas on the buffer manager -/

theorem flush_buffer_empty (bm : BufferState) (fs : FileSys) (t : Nat) (k : Bool)
    (h : bm.output_buffer = []) : flush_buffer t k bm fs = (bm, fs, false) := by
  simp [flush_buffer, h]

theorem flush_buffer_fail (bm : BufferState) (fs : FileSys) (t : Nat) :
    flush_buffer t false bm fs = (bm, fs, false) := by
  by_cases h : bm.output_buffer = []
  · exact flush_buffer_empty bm fs t false h
  · simp [flush_buffer, h]

theorem flush_buffer_success (bm : BufferState) (fs : FileSys) (t : Nat)
    (h : bm.output_buffer ≠ []) :
    flush_buffer t true bm fs
      = ({ bm with
            output_buffer := [], buffer_size := 0, last_filepath := mkFilepath bm t },
         fsSet fs (mkFilepath bm t)
           ((fsGet fs (mkFilepath bm t)).getD [] ++ bm.output_buffer.flatten),
         true) := by
  simp [flush_buffer, h]

theorem flush_buffer_total_bytes (bm : BufferState) (fs : FileSys) (t : Nat) (k : Bool) :
    (flush_buffer t k bm fs).1.total_bytes = bm.total_bytes := by
  by_cases h : bm.output_buffer = []
  · rw [flush_buffer_empty bm fs t k h]
  · cases k
    · rw [flush_buffer_fail]
    · rw [flush_buffer_success bm fs t h]

theorem fsGet_fsSet_self (fs : FileSys) (p : String) (content : List Char) :
    fsGet (fsSet fs p content) p = some content := by
  induction fs with
  | nil => simp [fsSet, fsGet]
  | cons e r ih =>
      by_cases h : e.1 = p
      · simp [fsSet, fsGet, h]
      · simp [fsSet, fsGet, h, ih]

theorem mkFilepath_ne_empty (bm : BufferState) (t : Nat) : mkFilepath bm t ≠ "" := by
  intro h
  have hlen : (mkFilepath bm t).length = 0 := by rw [h]; rfl
  rw [mkFilepath] at hlen
  simp only [String.length_append] at hlen
  have h4 : (".txt" : String).length = 4 := rfl
  omega

theorem get_last_filepath_stored (bm : BufferState) (t : Nat)
    (h : bm.last_filepath ≠ "") : get_last_filepath t bm = bm.last_filepath := by
  simp [get_last_filepath, h]

/-! ## Claims about the buffer manager -/

/-- C3: a block that would push accepted bytes past the 50MB cap is rejected
with no state change; an accepted block raises `total_bytes` by exactly its
UTF-8 size; `total_bytes` never decreases, stays under the cap, and every run
of `add_data` calls from a fresh manager keeps it under the cap. -/
theorem claim_C3_cap (data : List Char) (t : Nat) (k : Bool)
    (bm : BufferState) (fs : FileSys) :
    (bm.total_bytes + utf8Len data > max_output_size →
        add_data data t k bm fs = (bm, fs, false))
  ∧ (bm.total_bytes + utf8Len data ≤ max_output_size →
        (add_data data t k bm fs).2.2 = true
        ∧ (add_data data t k bm fs).1.total_bytes = bm.total_bytes + utf8Len data)
  ∧ bm.total_bytes ≤ (add_data data t k bm fs).1.total_bytes
  ∧ (bm.total_bytes ≤ max_output_size →
        (add_data data t k bm fs).1.total_bytes ≤ max_output_size)
  ∧ (∀ (ops : List (List Char × Nat × Bool)) (d m i : String) (fs0 : FileSys),
        (addRun ops (initBuffer d m i) fs0).1.total_bytes ≤ max_output_size) := by
  have hrej : bm.total_bytes + utf8Len data > max_output_size →
      add_data data t k bm fs = (bm, fs, false) := by
    intro h
    simp [add_data, h]
  have hacc : bm.total_bytes + utf8Len data ≤ max_output_size →
      (add_data data t k bm fs).2.2 = true
      ∧ (add_data data t k bm fs).1.total_bytes = bm.total_bytes + utf8Len data := by
    intro h
    have h2 : ¬(bm.total_bytes + utf8Len data > max_output_size) := not_lt.mpr h
    simp only [add_data, if_neg h2]
    constructor
    · trivial
    · split
      · simp [flush_buffer_total_bytes]
      · simp
  refine ⟨hrej, hacc, ?_, ?_, ?_⟩
  · by_cases h : bm.total_bytes + utf8Len data > max_output_size
    · rw [hrej h]
    · rw [(hacc (not_lt.mp h)).2]
      omega
  · intro hle
    by_cases h : bm.total_bytes + utf8Len data > max_output_size
    · rw [hrej h]
      exact hle
    · rw [(hacc (not_lt.mp h)).2]
      omega
  · intro ops d m i fs0
    have key : ∀ (ops : List (List Char × Nat × Bool)) (bm0 : BufferState) (fs0 : FileSys),
        bm0.total_bytes ≤ max_output_size →
        (addRun ops bm0 fs0).1.total_bytes ≤ max_output_size := by
      intro ops
      induction ops with
      | nil => intro bm0 fs0 h; exact h
      | cons op rest ih =>
          intro bm0 fs0 h
          have hstep : (add_data op.1 op.2.1 op.2.2 bm0 fs0).1.total_bytes
              ≤ max_output_size := by
            by_cases hc : bm0.total_bytes + utf8Len op.1 > max_output_size
            · simp [add_data, hc]
              exact h
            · simp only [add_data, if_neg hc]
              split
              · simp [flush_buffer_total_bytes]
                omega
              · simp
                omega
          exact ih _ _ hstep
    exact key ops _ fs0 (by simp [initBuffer, max_output_size])

/-- Witness for C3: with `total_bytes` already at the cap, adding the one-byte
block `"x"` is rejected and leaves the state untouched. -/
theorem claim_C3_witness :
    add_data "x".data 0 true cxCapBuffer [] = (cxCapBuffer, [], false) :=
  (claim_C3_cap "x".data 0 true cxCapBuffer []).1 (by decide)


/-- C6 (amended): every flush derives the output path from the flush-time
timestamp — so flushes in the same second append to the same file, determined
only by the run's directory, mode tag and host — and an I/O failure or an
empty buffer leaves the state untouched and reports failure. -/
theorem claim_C6_amended (bm : BufferState) (fs : FileSys) (t : Nat) :
    flush_buffer t false bm fs = (bm, fs, false)
  ∧ (bm.output_buffer = [] → ∀ k, flush_buffer t k bm fs = (bm, fs, false))
  ∧ (bm.output_buffer ≠ [] →
      flush_buffer t true bm fs
        = ({ bm with
              output_buffer := [], buffer_size := 0, last_filepath := mkFilepath bm t },
           fsSet fs (mkFilepath bm t)
             ((fsGet fs (mkFilepath bm t)).getD [] ++ bm.output_buffer.flatten),
           true))
  ∧ (∀ bm2 : BufferState, bm2.output_dir = bm.output_dir → bm2.mode = bm.mode →
      bm2.ip = bm.ip → mkFilepath bm2 t = mkFilepath bm t) := by
  refine ⟨flush_buffer_fail bm fs t, fun h k => flush_buffer_empty bm fs t k h,
    flush_buffer_success bm fs t, ?_⟩
  intro bm2 h1 h2 h3
  simp [mkFilepath, h1, h2, h3]

/-- Counterexample for C6: the run `cxBmA` flushes at second 0 and again (after
one more accepted block) at second 1; the second flush writes a different file
instead of appending to the first, refuting "the filename is computed once and
reused across all flushes of the run". -/
theorem claim_C6_counterexample :
    cxFlush2.1.last_filepath ≠ cxFlush1.1.last_filepath
  ∧ fsGet cxFlush2.2.1 cxFlush1.1.last_filepath = some "a".data
  ∧ fsGet cxFlush2.2.1 cxFlush2.1.last_filepath = some "b".data := by decide

/-- Witness for C6 (amended): the successful-flush characterization applied to
the concrete one-block state `cxBmA` at second 0. -/
theorem claim_C6_witness :
    flush_buffer 0 true cxBmA []
      = ({ cxBmA with
            output_buffer := [], buffer_size := 0, last_filepath := mkFilepath cxBmA 0 },
         fsSet [] (mkFilepath cxBmA 0)
           ((fsGet [] (mkFilepath cxBmA 0)).getD [] ++ cxBmA.output_buffer.flatten),
         true) :=
  (claim_C6_amended cxBmA [] 0).2.2.1 (by decide)

/-! ## Finalize helper lemmas -/

theorem finalize_empty_stored (bm : BufferState) (fs : FileSys) (t : Nat)
    (h : bm.output_buffer = []) (hlf : bm.last_filepath ≠ "") :
    finalize t true bm fs
      = (bm,
         if (fsGet fs bm.last_filepath).isSome then fs else fsSet fs bm.last_filepath [],
         { total_bytes := bm.total_bytes, output_dir := bm.output_dir,
           filepath := bm.last_filepath }) := by
  simp only [finalize, flush_buffer_empty bm fs t true h,
    get_last_filepath_stored bm t hlf]
  by_cases hg : (fsGet fs bm.last_filepath).isSome
  · simp [hg]
  · simp [hg]

theorem finalize_with_data (bm : BufferState) (fs : FileSys) (t : Nat)
    (h : bm.output_buffer ≠ []) :
    finalize t true bm fs
      = ({ bm with
            output_buffer := [], buffer_size := 0, last_filepath := mkFilepath bm t },
         fsSet fs (mkFilepath bm t)
           ((fsGet fs (mkFilepath bm t)).getD [] ++ bm.output_buffer.flatten),
         { total_bytes := bm.total_bytes, output_dir := bm.output_dir,
           filepath := mkFilepath bm t }) := by
  simp only [finalize, flush_buffer_success bm fs t h]
  rw [get_last_filepath_stored _ t (by simpa using mkFilepath_ne_empty bm t)]
  simp [fsGet_fsSet_self]

/-- C7 (amended): once the run has a recorded output file (a non-empty buffer
about to be flushed, or a stored `_last_filepath`), calling `finalize` twice
returns the same file path from both calls and leaves the file system — hence
the file content — unchanged by the second call.  (In a run that never
received data the two calls generate paths from their own timestamps, which
the counterexample shows can differ.) -/
theorem claim_C7_amended (bm : BufferState) (fs : FileSys) (t1 t2 : Nat)
    (h : bm.output_buffer ≠ [] ∨ bm.last_filepath ≠ "") :
    (finalize t2 true (finalize t1 true bm fs).1 (finalize t1 true bm fs).2.1).2.2.filepath
        = (finalize t1 true bm fs).2.2.filepath
  ∧ (finalize t2 true (finalize t1 true bm fs).1 (finalize t1 true bm fs).2.1).2.1
        = (finalize t1 true bm fs).2.1 := by
  by_cases hbuf : bm.output_buffer = []
  · have hlf : bm.last_filepath ≠ "" := by
      rcases h with h | h
      · exact absurd hbuf h
      · exact h
    rw [finalize_empty_stored bm fs t1 hbuf hlf]
    by_cases hg : (fsGet fs bm.last_filepath).isSome
    · rw [if_pos hg]
      rw [finalize_empty_stored bm fs t2 hbuf hlf]
      simp [hg]
    · rw [if_neg hg]
      rw [finalize_empty_stored bm (fsSet fs bm.last_filepath []) t2 hbuf hlf]
      simp [fsGet_fsSet_self]
  · rw [finalize_with_data bm fs t1 hbuf]
    rw [finalize_empty_stored _ _ t2 (by simp) (by simpa using mkFilepath_ne_empty bm t1)]
    simp [fsGet_fsSet_self]

/-- Counterexample for C7: a run that never received data — the first
`finalize` (second 0) creates `out/m-1.2.3.4-0.txt` but does not record it, so
the second `finalize` (second 1) returns the different path
`out/m-1.2.3.4-1.txt`. -/
theorem claim_C7_counterexample : cxFin2.2.2.filepath ≠ cxFin1.2.2.filepath := by decide

/-- Witness for C7 (amended): a run with one buffered block finalized at
second 3 and again at second 9 reports the same path both times. -/
theorem claim_C7_witness :
    (finalize 9 true (finalize 3 true cxBmW []).1 (finalize 3 true cxBmW []).2.1).2.2.filepath
      = (finalize 3 true cxBmW []).2.2.filepath :=
  (claim_C7_amended cxBmW [] 3 9 (Or.inl (by decide))).1


/-! ## Claims about the command loop -/

theorem execStep_count (env : ExecEnv) (i : Nat) (cmd : List Char)
    (bm : BufferState) (fs : FileSys) (stats : WorkerStats) :
    (execStep env i cmd bm fs stats).2.2.completed
      + (execStep env i cmd bm fs stats).2.2.failed
      = stats.completed + stats.failed + 1 := by
  rcases henv : env.result i with ⟨sc, out⟩ | msg
  · simp only [execStep, henv]
    split
    · simp
      omega
    · simp
      omega
  · simp [execStep, henv]
    omega

theorem execCommandsFrom_count (env : ExecEnv) (cmds : List (List Char)) :
    ∀ (i : Nat) (bm : BufferState) (fs : FileSys) (stats : WorkerStats),
    ((∀ j, env.running j = true) →
        (execCommandsFrom env i cmds bm fs stats).2.2.completed
          + (execCommandsFrom env i cmds bm fs stats).2.2.failed
          = stats.completed + stats.failed + cmds.length)
    ∧ (execCommandsFrom env i cmds bm fs stats).2.2.completed
        + (execCommandsFrom env i cmds bm fs stats).2.2.failed
        ≤ stats.completed + stats.failed + cmds.length := by
  induction cmds with
  | nil =>
      intro i bm fs stats
      constructor
      · intro _
        simp [execCommandsFrom]
      · simp [execCommandsFrom]
  | cons cmd rest ih =>
      intro i bm fs stats
      constructor
      · intro hrun
        simp only [execCommandsFrom, hrun i, if_true]
        have hstep := execStep_count env i cmd bm fs stats
        have := (ih (i + 1) (execStep env i cmd bm fs stats).1
          (execStep env i cmd bm fs stats).2.1 (execStep env i cmd bm fs stats).2.2).1 hrun
        rw [this, hstep]
        simp
        omega
      · by_cases hrun : env.running i = true
        · simp only [execCommandsFrom, hrun, if_true]
          have hstep := execStep_count env i cmd bm fs stats
          have := (ih (i + 1) (execStep env i cmd bm fs stats).1
            (execStep env i cmd bm fs stats).2.1 (execStep env i cmd bm fs stats).2.2).2
          simp only [List.length_cons]
          omega
        · simp only [execCommandsFrom, hrun, if_false]
          simp

/-- C1 (amended): one of `completedCommands` and `failedCommands` is
incremented for every command the loop actually reaches, so their sum equals
`totalCommands` whenever the run is never stopped early; in general (the stop
flag may clear mid-run and the loop then breaks) the sum is bounded by
`totalCommands` but can fall short of it. -/
theorem claim_C1_amended (env : ExecEnv) (cmds : List (List Char))
    (bm : BufferState) (fs : FileSys) :
    ((∀ j, env.running j = true) →
        (execCommands env cmds bm fs).2.2.completed
          + (execCommands env cmds bm fs).2.2.failed = cmds.length)
  ∧ (execCommands env cmds bm fs).2.2.completed
      + (execCommands env cmds bm fs).2.2.failed ≤ cmds.length := by
  have h := execCommandsFrom_count env cmds 0 bm fs ⟨0, 0⟩
  constructor
  · intro hrun
    have := h.1 hrun
    simpa using this
  · simpa using h.2

/-- Counterexample for C1: the external stop signal is observed before the
first command, the loop breaks, and `completed + failed = 0 ≠ 1 =
totalCommands` even though the run reached its ABORTED end. -/
theorem claim_C1_counterexample :
    ¬((execCommands cxStopEnv ["show version".data]
          (initBuffer "out" "m" "1.2.3.4") []).2.2.completed
        + (execCommands cxStopEnv ["show version".data]
            (initBuffer "out" "m" "1.2.3.4") []).2.2.failed
        = (["show version".data] : List (List Char)).length) := by decide

/-- Witness for C1 (amended): a never-stopped run over one command yields
`completed + failed = 1`. -/
theorem claim_C1_witness :
    (execCommands cxRunEnv ["show clock".data] (initBuffer "out" "m" "1.2.3.4") []).2.2.completed
      + (execCommands cxRunEnv ["show clock".data]
          (initBuffer "out" "m" "1.2.3.4") []).2.2.failed
      = (["show clock".data] : List (List Char)).length :=
  (claim_C1_amended cxRunEnv ["show clock".data]
    (initBuffer "out" "m" "1.2.3.4") []).1 (fun _ => rfl)

theorem add_data_mem (data : List Char) (t : Nat) (k : Bool)
    (bm : BufferState) (fs : FileSys)
    (h : bm.total_bytes + utf8Len data ≤ max_output_size) :
    data ∈ (add_data data t k bm fs).1.output_buffer := by
  have h2 : ¬(bm.total_bytes + utf8Len data > max_output_size) := not_lt.mpr h
  simp only [add_data, if_neg h2]
  split <;> simp

/-- C4 (amended): an exception raised while executing a command increments
`failedCommands` (never `completedCommands`) and formats an error block that
begins with the stripped command, buffered whenever the cap admits it; for a
command that returns a `(success, output)` pair the counters are driven by
the `add_data` result alone — `completedCommands` on acceptance,
`failedCommands` on rejection — regardless of the reported success; and in
either case the loop proceeds to the remaining commands. -/
theorem claim_C4_amended (env : ExecEnv) (i : Nat) (cmd : List Char)
    (bm : BufferState) (fs : FileSys) (stats : WorkerStats) :
    (∀ msg, env.result i = .exn msg →
        (execStep env i cmd bm fs stats).2.2
            = { completed := stats.completed, failed := stats.failed + 1 }
        ∧ (bm.total_bytes
              + utf8Len (format_command_output cmd (some (errMark ++ msg)) false)
              ≤ max_output_size →
            format_command_output cmd (some (errMark ++ msg)) false
              ∈ (execStep env i cmd bm fs stats).1.output_buffer)
        ∧ pyStrip cmd <+: format_command_output cmd (some (errMark ++ msg)) false)
  ∧ (∀ sc out, env.result i = .ok sc out →
        ((add_data (format_command_output cmd (some out) sc) env.now env.diskOk bm fs).2.2
            = true →
          (execStep env i cmd bm fs stats).2.2
            = { completed := stats.completed + 1, failed := stats.failed })
        ∧ ((add_data (format_command_output cmd (some out) sc) env.now env.diskOk bm fs).2.2
            = false →
          (execStep env i cmd bm fs stats).2.2
            = { completed := stats.completed, failed := stats.failed + 1 }))
  ∧ (∀ rest, env.running i = true →
        execCommandsFrom env i (cmd :: rest) bm fs stats
          = execCommandsFrom env (i + 1) rest (execStep env i cmd bm fs stats).1
              (execStep env i cmd bm fs stats).2.1
              (execStep env i cmd bm fs stats).2.2) := by
  refine ⟨?_, ?_, ?_⟩
  · intro msg hmsg
    refine ⟨by simp [execStep, hmsg], ?_, ⟨_, rfl⟩⟩
    intro hcap
    simp only [execStep, hmsg]
    exact add_data_mem _ env.now env.diskOk bm fs hcap
  · intro sc out hok
    constructor
    · intro hacc
      simp [execStep, hok, hacc]
    · intro hacc
      simp [execStep, hok, hacc]
  · intro rest hrun
    simp [execCommandsFrom, hrun]

/-- Counterexample for C4: the command reports failure (`success = False`,
e.g. an SSH transport error surfaced through the returned pair), yet since the
formatted block is accepted by the buffer the loop increments
`completedCommands`, not `failedCommands`. -/
theorem claim_C4_counterexample :
    (execCommands cxFailEnv ["show clock".data]
        (initBuffer "out" "m" "1.2.3.4") []).2.2
      = { completed := 1, failed := 0 } := by decide

/-- Witness for C4 (amended): a raised exception increments `failedCommands`
only. -/
theorem claim_C4_witness :
    (execStep cxExnEnv 0 "show ver".data (initBuffer "out" "m" "1.2.3.4") [] ⟨0, 0⟩).2.2
      = { completed := 0, failed := 1 } :=
  ((claim_C4_amended cxExnEnv 0 "show ver".data
    (initBuffer "out" "m" "1.2.3.4") [] ⟨0, 0⟩).1 "boom".data rfl).1


/-! ## Equivalence of the two read-path normalizations (C2) -/

theorem pySplitAux_crlf (acc : List Char) (r : List Char) :
    pySplitAux acc ('\r' :: '\n' :: r)
      = acc.reverse :: (if r.isEmpty then [] else pySplitAux [] r) := by
  simp [pySplitAux]

theorem pySplitAux_cons_cons_bd (acc : List Char) (c c2 : Char) (r : List Char)
    (h1 : ¬(c = '\r' ∧ c2 = '\n')) (h2 : isLineBoundary c = true) :
    pySplitAux acc (c :: c2 :: r) = acc.reverse :: pySplitAux [] (c2 :: r) := by
  simp only [pySplitAux]
  rw [if_neg (by simpa using h1), if_pos h2]

theorem pySplitAux_cons_cons_not_bd (acc : List Char) (c c2 : Char) (r : List Char)
    (h2 : isLineBoundary c = false) :
    pySplitAux acc (c :: c2 :: r) = pySplitAux (c :: acc) (c2 :: r) := by
  have hc : ¬(c = '\r') := by
    intro hh
    rw [hh] at h2
    simp [isLineBoundary] at h2
  simp only [pySplitAux]
  rw [if_neg (by simp [hc]), if_neg (by simp [h2])]

theorem pySplitAux_single_bd (acc : List Char) (c : Char)
    (h : isLineBoundary c = true) : pySplitAux acc [c] = [acc.reverse] := by
  simp [pySplitAux, h]

theorem pySplitAux_single_not_bd (acc : List Char) (c : Char)
    (h : isLineBoundary c = false) : pySplitAux acc [c] = [(c :: acc).reverse] := by
  simp [pySplitAux, h]


theorem subCrRunLfAux_filter (p : Nat) (s : List Char) :
    (subCrRunLfAux p s).filter (fun c => c ≠ '\r')
      = s.filter (fun c => c ≠ '\r') := by
  induction p, s using subCrRunLfAux.induct with
  | case1 p => simp [subCrRunLfAux, List.filter_replicate]
  | case2 p r ih =>
      simp [subCrRunLfAux, List.filter_cons]
      simpa using ih
  | case3 p r hne ih =>
      simp [subCrRunLfAux, List.filter_cons]
      simpa using ih
  | case4 p c r hc hn ih =>
      simp [subCrRunLfAux, hc, hn, List.filter_cons, List.filter_append,
        List.filter_replicate]
      simpa using ih

theorem sshNormalize_eq_filter (s : List Char) :
    sshNormalize s = s.filter (fun c => c ≠ '\x00' && c ≠ '\r') := by
  unfold sshNormalize subCrRunLf
  rw [subCrRunLfAux_filter, List.filter_filter]
  have hfun : (fun a => decide (a ≠ '\r') && decide (a ≠ '\x00'))
      = (fun c => decide (c ≠ '\x00') && decide (c ≠ '\r')) := by
    funext a
    exact Bool.and_comm _ _
  rw [hfun]

theorem replaceCrLf_no_cr (s : List Char) (h : ∀ c ∈ s, c ≠ '\r') :
    replaceCrLf s = s := by
  induction s using replaceCrLf.induct with
  | case1 => rfl
  | case2 c => rfl
  | case3 c c2 r hc ih =>
      have : c = '\r' := by simpa using (Bool.and_eq_true _ _ |>.mp hc).1
      exact absurd this (h c (by simp))
  | case4 c c2 r hc ih =>
      simp only [replaceCrLf]
      rw [if_neg (by simpa using hc)]
      rw [ih (fun d hd => h d (by simp [hd]))]


theorem crlfOnly_cr (c2 : Char) (r : List Char) (h : crlfOnly ('\r' :: c2 :: r) = true) :
    c2 = '\n' ∧ crlfOnly r = true := by
  simpa [crlfOnly] using h

theorem crlfOnly_cons (c c2 : Char) (r : List Char) (hc : c ≠ '\r')
    (h : crlfOnly (c :: c2 :: r) = true) : crlfOnly (c2 :: r) = true := by
  simpa [crlfOnly, hc] using h

theorem filter_cr_ne_nil (s : List Char) (h : crlfOnly s = true) (hne : s ≠ []) :
    s.filter (fun c => c ≠ '\r') ≠ [] := by
  match s with
  | [c] =>
      have hc : c ≠ '\r' := by simpa [crlfOnly] using h
      simp [List.filter_cons, hc]
  | c :: c2 :: r =>
      by_cases hc : c = '\r'
      · subst hc
        obtain ⟨h1, h2⟩ := crlfOnly_cr c2 r h
        subst h1
        simp [List.filter_cons]
      · simp [List.filter_cons, hc]

theorem pySplitAux_filter_cr :
    ∀ s : List Char, crlfOnly s = true →
    ∀ acc, pySplitAux acc (s.filter (fun c => c ≠ '\r')) = pySplitAux acc s := by
  intro s
  induction s using crlfOnly.induct with
  | case1 => intro _ acc; rfl
  | case2 c =>
      intro h acc
      have hc : c ≠ '\r' := by simpa [crlfOnly] using h
      simp [List.filter_cons, hc]
  | case3 c2 r ih =>
      intro h acc
      obtain ⟨h1, h2⟩ := crlfOnly_cr c2 r h
      subst h1
      have hfc : ('\r' :: '\n' :: r).filter (fun c => c ≠ '\r')
          = '\n' :: r.filter (fun c => c ≠ '\r') := by
        simp [List.filter_cons]
      rw [hfc, pySplitAux_crlf]
      rcases hfr : r.filter (fun c => c ≠ '\r') with _ | ⟨d, ds⟩
      · have hr : r = [] := by
          by_contra hne
          exact filter_cr_ne_nil r h2 hne hfr
        subst hr
        rw [pySplitAux_single_bd acc '\n' (by simp [isLineBoundary])]
        simp
      · have hrne : r ≠ [] := by
          intro hr
          subst hr
          simp at hfr
        rw [pySplitAux_cons_cons_bd acc '\n' d ds (by simp) (by simp [isLineBoundary])]
        rw [← hfr, ih h2 []]
        simp [hrne]
  | case4 c c2 r hc ih =>
      intro h acc
      have h2 := crlfOnly_cons c c2 r hc h
      have hfc : (c :: c2 :: r).filter (fun x => x ≠ '\r')
          = c :: (c2 :: r).filter (fun x => x ≠ '\r') := by
        simp [List.filter_cons, hc]
      rw [hfc]
      have hfilterne : (c2 :: r).filter (fun x => x ≠ '\r') ≠ [] :=
        filter_cr_ne_nil (c2 :: r) h2 (by simp)
      rcases hfr : (c2 :: r).filter (fun x => x ≠ '\r') with _ | ⟨d, ds⟩
      · exact absurd hfr hfilterne
      · by_cases hbd : isLineBoundary c = true
        · rw [pySplitAux_cons_cons_bd acc c d ds (fun hh => hc hh.1) hbd]
          rw [pySplitAux_cons_cons_bd acc c c2 r (fun hh => hc hh.1) hbd]
          rw [← hfr, ih h2 []]
        · have hbd2 : isLineBoundary c = false := by simpa using hbd
          rw [pySplitAux_cons_cons_not_bd acc c d ds hbd2]
          rw [pySplitAux_cons_cons_not_bd acc c c2 r hbd2]
          rw [← hfr, ih h2 (c :: acc)]

theorem pySplitlines_eq_aux (s : List Char) (h : s ≠ []) :
    pySplitlines s = pySplitAux [] s := by
  cases s with
  | nil => exact absurd rfl h
  | cons c r => rfl

theorem pySplitlines_filter_cr (s : List Char) (h : crlfOnly s = true) :
    pySplitlines (s.filter (fun c => c ≠ '\r')) = pySplitlines s := by
  by_cases hse : s = []
  · subst hse; rfl
  · have hf := filter_cr_ne_nil s h hse
    rw [pySplitlines_eq_aux _ hf, pySplitlines_eq_aux _ hse,
      pySplitAux_filter_cr s h []]

theorem normNewlines_no_cr (s : List Char) (h : ∀ c ∈ s, c ≠ '\r') :
    normNewlines s = s := by
  unfold normNewlines
  rw [replaceCrLf_no_cr s h]
  have hmap : ∀ c ∈ s, (if c = '\r' then '\n' else c) = c := fun c hc => by
    simp [h c hc]
  rw [List.map_congr_left hmap]
  simp


theorem pySplitAux_append_line :
    ∀ (l : List Char), (∀ c ∈ l, isLineBoundary c = false) →
    ∀ acc rest, pySplitAux acc (l ++ rest) = pySplitAux (l.reverse ++ acc) rest := by
  intro l
  induction l with
  | nil => intro _ acc rest; simp
  | cons c l2 ih =>
      intro hl acc rest
      have hbd : isLineBoundary c = false := hl c (by simp)
      rcases hx : l2 ++ rest with _ | ⟨d, ds⟩
      · obtain ⟨h1, h2⟩ := List.append_eq_nil.mp hx
        subst h1
        subst h2
        rw [show (c :: ([] : List Char)) ++ [] = [c] from rfl]
        rw [pySplitAux_single_not_bd acc c hbd]
        simp [pySplitAux]
      · rw [show (c :: l2) ++ rest = c :: (l2 ++ rest) from rfl, hx]
        rw [pySplitAux_cons_cons_not_bd acc c d ds hbd]
        rw [← hx]
        rw [ih (fun e he => hl e (by simp [he])) (c :: acc) rest]
        congr 1
        simp

theorem pyJoinLF_ne_nil (ls : List (List Char)) (h2 : ∀ l ∈ ls, l ≠ []) (h1 : ls ≠ []) :
    pyJoinLF ls ≠ [] := by
  match ls with
  | [l] => simpa [pyJoinLF] using h2 l (by simp)
  | l :: l2 :: ls2 =>
      simp only [pyJoinLF]
      intro hc
      obtain ⟨-, h⟩ := List.append_eq_nil.mp hc
      simp at h

theorem pySplitlines_pyJoinLF (ls : List (List Char))
    (h1 : ∀ l ∈ ls, l ≠ []) (h2 : ∀ l ∈ ls, ∀ c ∈ l, isLineBoundary c = false) :
    pySplitlines (pyJoinLF ls) = ls := by
  induction ls with
  | nil => rfl
  | cons l ls ih =>
      cases ls with
      | nil =>
          simp only [pyJoinLF]
          rw [pySplitlines_eq_aux l (h1 l (by simp))]
          calc pySplitAux [] l
              = pySplitAux [] (l ++ []) := by simp
            _ = pySplitAux (l.reverse ++ []) [] :=
                pySplitAux_append_line l (h2 l (by simp)) [] []
            _ = [l] := by simp [pySplitAux]
      | cons l2 ls2 =>
          simp only [pyJoinLF]
          have hlne : l ≠ [] := h1 l (by simp)
          have hcons : l ++ '\n' :: pyJoinLF (l2 :: ls2) ≠ [] := by
            cases l with
            | nil => exact absurd rfl hlne
            | cons a b => simp
          rw [pySplitlines_eq_aux _ hcons]
          rw [pySplitAux_append_line l (h2 l (by simp)) [] ('\n' :: pyJoinLF (l2 :: ls2))]
          have hJ : pyJoinLF (l2 :: ls2) ≠ [] :=
            pyJoinLF_ne_nil _ (fun m hm => h1 m (by simp [hm])) (by simp)
          rcases hJx : pyJoinLF (l2 :: ls2) with _ | ⟨d, ds⟩
          · exact absurd hJx hJ
          · rw [pySplitAux_cons_cons_bd _ '\n' d ds (by simp) (by simp [isLineBoundary])]
            rw [← hJx]
            rw [← pySplitlines_eq_aux _ hJ]
            rw [ih (fun m hm => h1 m (by simp [hm])) (fun m hm => h2 m (by simp [hm]))]
            simp

theorem telnetNormalize_no_blank (s : List Char) (hne : s ≠ [])
    (hb : ∀ l ∈ pySplitlines s, pyStrip l ≠ []) :
    telnetNormalize s = pyJoinLF (pySplitlines s) := by
  unfold telnetNormalize
  have hfil : (pySplitlines s).filter (fun ln => pyStrip ln ≠ []) = pySplitlines s :=
    List.filter_eq_self.mpr (fun l hl => by simpa using hb l hl)
  dsimp only
  rw [hfil]
  have : ¬((pySplitlines s).isEmpty = true) := by
    rw [List.isEmpty_iff]
    exact pySplitlines_ne_nil s hne
  rw [if_neg this]


theorem formatLines_sshNormalize (s : List Char)
    (hnul : ∀ c ∈ s, c ≠ '\x00') (hcr : crlfOnly s = true) :
    formatLines (sshNormalize s) = pySplitlines s := by
  rw [sshNormalize_eq_filter]
  unfold formatLines
  have h1 : (s.filter (fun c => c ≠ '\x00' && c ≠ '\r')).filter (fun c => c ≠ '\x00')
      = s.filter (fun c => c ≠ '\x00' && c ≠ '\r') := by
    apply List.filter_eq_self.mpr
    intro a ha
    have hmem := (List.mem_filter.mp ha).2
    simp only [Bool.and_eq_true] at hmem
    simpa using hmem.1
  rw [h1]
  have h2 : normNewlines (s.filter (fun c => c ≠ '\x00' && c ≠ '\r'))
      = s.filter (fun c => c ≠ '\x00' && c ≠ '\r') := by
    apply normNewlines_no_cr
    intro c hc
    have hmem := (List.mem_filter.mp hc).2
    simp only [Bool.and_eq_true] at hmem
    simpa using hmem.2
  rw [h2]
  have h3 : s.filter (fun c => c ≠ '\x00' && c ≠ '\r')
      = s.filter (fun c => c ≠ '\r') := by
    apply List.filter_congr
    intro c hc
    simp [hnul c hc]
  rw [h3]
  exact pySplitlines_filter_cr s hcr

theorem formatLines_telnetNormalize (s : List Char) (hne : s ≠ [])
    (hnul : ∀ c ∈ s, c ≠ '\x00') (hb : ∀ l ∈ pySplitlines s, pyStrip l ≠ []) :
    formatLines (telnetNormalize s) = pySplitlines s := by
  rw [telnetNormalize_no_blank s hne hb]
  have hlnul : ∀ l ∈ pySplitlines s, ∀ c ∈ l, c ≠ '\x00' :=
    pySplitlines_chars (fun c => c ≠ '\x00') s (fun c hc _ => hnul c hc)
  have hlbd := pySplitlines_no_boundary s
  have hJnul : ∀ c ∈ pyJoinLF (pySplitlines s), c ≠ '\x00' := by
    intro c hc
    rcases mem_pyJoinLF _ _ hc with h | ⟨l, hl, hcl⟩
    · simp [h]
    · exact hlnul l hl c hcl
  have hJcr : ∀ c ∈ pyJoinLF (pySplitlines s), c ≠ '\r' := by
    intro c hc
    rcases mem_pyJoinLF _ _ hc with h | ⟨l, hl, hcl⟩
    · simp [h]
    · have hbd := hlbd l hl c hcl
      intro hcrc
      subst hcrc
      simp [isLineBoundary] at hbd
  unfold formatLines
  rw [List.filter_eq_self.mpr (fun c hc => by simpa using hJnul c hc)]
  rw [normNewlines_no_cr _ hJcr]
  apply pySplitlines_pyJoinLF
  · intro l hl hemp
    apply hb l hl
    rw [hemp]
    rfl
  · exact hlbd

/-- C2 (amended): for raw outputs containing no NUL, whose every carriage
return is part of a CRLF pair, and whose every line contains a non-whitespace
character, the SSH read-path normalization and the Telnet read-path
normalization feed the shared formatter the same line structure and the two
formatted blocks are byte-for-byte identical.  (Without those hypotheses the
paths genuinely diverge: Telnet deletes blank lines that SSH keeps, and SSH
deletes lone CRs that Telnet turns into line breaks — see the
counterexample.) -/
theorem claim_C2_amended (cmd s : List Char) (b1 b2 : Bool)
    (hnul : ∀ c ∈ s, c ≠ '\x00')
    (hcr : crlfOnly s = true)
    (hblank : ∀ l ∈ pySplitlines s, pyStrip l ≠ []) :
    format_command_output cmd (some (sshNormalize s)) b1
      = format_command_output cmd (some (telnetNormalize s)) b2 := by
  by_cases hse : s = []
  · subst hse
    rfl
  · simp only [format_command_output, formatBody, Option.getD_some]
    rw [formatLines_sshNormalize s hnul hcr,
      formatLines_telnetNormalize s hse hnul hblank]

/-- Counterexample for C2: the raw output
`"show ver\r\nline1\r\n\r\nline2\r\nSW#"` contains a blank line; the Telnet
path deletes it while the SSH path keeps it, so the two formatted blocks
differ. -/
theorem claim_C2_counterexample :
    format_command_output "show ver".data
        (some (sshNormalize "show ver\r\nline1\r\n\r\nline2\r\nSW#".data)) true
      ≠ format_command_output "show ver".data
          (some (telnetNormalize "show ver\r\nline1\r\n\r\nline2\r\nSW#".data)) true := by
  decide

/-- Witness for C2 (amended): a CRLF-terminated output with no blank lines
formats identically through both read paths. -/
theorem claim_C2_witness :
    format_command_output "show ver".data
        (some (sshNormalize "show ver\r\nline1\r\nSW#".data)) true
      = format_command_output "show ver".data
          (some (telnetNormalize "show ver\r\nline1\r\nSW#".data)) true :=
  claim_C2_amended "show ver".data "show ver\r\nline1\r\nSW#".data true true
    (by decide) (by decide) (by decide)

end ICC
